import Mathlib

set_option autoImplicit false

/-! Verification of the asyncanticheat ingestion/dispatch service.

The Rust sources under `src/api/src` are shallowly embedded: pure functions
become Lean functions, request handlers become explicit state-passing
functions returning a trace of the database / object-store operations they
perform, and `f64` arithmetic is modelled by exact rational arithmetic
(with a separate finiteness flag where the code checks `is_finite`).
UUIDs, dates and SHA-256 hashes are modelled as strings. -/

/-! ## Rust string primitives -/

/-- ASCII whitespace, the fragment of Rust's `char::is_whitespace` exercised
by this service's identifiers and headers. -/
def isRustWhitespace (c : Char) : Bool :=
  c = ' ' || c = '\t' || c = '\n' || c = '\r'

/-- Rust `str::trim`: removes leading and trailing whitespace. -/
def rustTrim (s : String) : String :=
  String.mk (((s.toList.dropWhile isRustWhitespace).reverse.dropWhile
    isRustWhitespace).reverse)

/-! ## JSON values (serde_json) -/

/-- JSON values as handled by serde_json.  A number carries its rational
value together with a finiteness flag: `as_f64` of an overflowing literal
yields an infinity, which the transforms explicitly reject via
`is_finite`. -/
inductive Json where
  | null
  | bool (b : Bool)
  | num (q : ℚ) (finite : Bool)
  | str (s : String)
  | arr (elems : List Json)
  | obj (fields : List (String × Json))

namespace Json

/-- `Value::get` on an object (field lookup by key). -/
def get (j : Json) (k : String) : Option Json :=
  match j with
  | .obj fields => fields.lookup k
  | _ => none

/-- `Value::as_str`. -/
def as_str : Json → Option String
  | .str s => some s
  | _ => none

/-- `Value::as_bool`. -/
def as_bool : Json → Option Bool
  | .bool b => some b
  | _ => none

/-- `Value::as_object`. -/
def as_object : Json → Option (List (String × Json))
  | .obj fields => some fields
  | _ => none

/-- `Value::as_array`. -/
def as_array : Json → Option (List Json)
  | .arr elems => some elems
  | _ => none

/-- `Value::as_u64`: the number must be a non-negative integer fitting u64. -/
def as_u64 : Json → Option Nat
  | .num q finite =>
      if finite = true ∧ q.den = 1 ∧ 0 ≤ q.num ∧ q.num < 2 ^ 64 then some q.num.toNat else none
  | _ => none

/-- `Value::as_i64`: the number must be an integer fitting i64. -/
def as_i64 : Json → Option Int
  | .num q finite =>
      if finite = true ∧ q.den = 1 ∧ -(2 ^ 63) ≤ q.num ∧ q.num < 2 ^ 63 then some q.num else none
  | _ => none

/-- `Value::as_f64`: returns the numeric value together with its
finiteness flag (`f64::is_finite`). -/
def as_f64 : Json → Option (ℚ × Bool)
  | .num q finite => some (q, finite)
  | _ => none

/-- `serde_json::Map::insert`: replaces the value when the key is present,
otherwise appends the binding. -/
def objInsert (fields : List (String × Json)) (k : String) (v : Json) :
    List (String × Json) :=
  if fields.any (fun p => p.1 == k) then
    fields.map (fun p => if p.1 == k then (k, v) else p)
  else
    fields ++ [(k, v)]

end Json

/-! ## Findings aggregation (src/api/src/routes/callbacks.rs, post_findings) -/

/-- One element of the `findings` array of `POST /callbacks/findings`
(struct `FindingIn`).  UUIDs are modelled as strings. -/
structure FindingIn where
  player_uuid : Option String
  detector_name : String
  detector_version : Option String
  severity : Option String
  title : String
  description : Option String
  evidence_s3_key : Option String
  evidence_json : Option Json

/-- `sev_rank` from post_findings: info < low < medium < high < critical,
every unknown string ranking as info. -/
def sev_rank (sev : String) : Int :=
  if sev = "critical" then 4
  else if sev = "high" then 3
  else if sev = "medium" then 2
  else if sev = "low" then 1
  else 0

/-- The in-request aggregate per `(player_uuid, detector_name)` group
(struct `Agg` inside post_findings). -/
structure Agg where
  count : Int
  detector_version : Option String
  severity : String
  title : String
  description : Option String
  evidence_s3_key : Option String
  evidence_json : Option Json

/-- Grouping key `(player_uuid, detector_name)`. -/
abbrev AggKey := String × String

/-- The in-request `HashMap<(Uuid, String), Agg>`, modelled as a function. -/
abbrev AggMap := AggKey → Option Agg

/-- The `or_insert_with` initial group entry built from the first finding
that touches the key. -/
def aggInit (f : FindingIn) : Agg :=
  { count := 0,
    detector_version := f.detector_version,
    severity := f.severity.getD "info",
    title := rustTrim f.title,
    description := f.description,
    evidence_s3_key := f.evidence_s3_key,
    evidence_json := f.evidence_json }

/-- The unconditional part of the grouping loop body: `entry.count += 1`
and `entry.detector_version = f.detector_version.or(entry.detector_version)`. -/
def aggBump (e0 : Agg) (f : FindingIn) : Agg :=
  { e0 with
    count := e0.count + 1,
    detector_version := f.detector_version.orElse fun _ => e0.detector_version }

/-- The "keep the strongest severity/title/desc" replacement: fires when
the incoming severity rank is at least the stored one. -/
def aggReplace (e1 : Agg) (f : FindingIn) : Agg :=
  if sev_rank (f.severity.getD "info") ≥ sev_rank e1.severity then
    { e1 with
      severity := f.severity.getD "info",
      title := rustTrim f.title,
      description := f.description,
      evidence_s3_key := f.evidence_s3_key,
      evidence_json := f.evidence_json }
  else e1

/-- Processing of one finding by the grouping loop of post_findings:
entries without a player UUID or with empty (trimmed) detector name or
title are dropped; otherwise the keyed entry is created or updated via
`aggInit`, `aggBump` and `aggReplace`.  Stated pointwise on the map. -/
def aggStep (m : AggMap) (f : FindingIn) : AggMap := fun k =>
  match f.player_uuid with
  | none => m k
  | some u =>
    if rustTrim f.detector_name = "" ∨ rustTrim f.title = "" then m k
    else if k = (u, rustTrim f.detector_name) then
      some (aggReplace (aggBump ((m (u, rustTrim f.detector_name)).getD (aggInit f)) f) f)
    else m k

/-- The whole grouping pass over the request's findings array. -/
def aggregateFindings (findings : List FindingIn) : AggMap :=
  findings.foldl aggStep fun _ => none

/-- A stored findings-aggregate row (the columns touched by the upsert). -/
structure FindingRow where
  occurrences : Int
  detector_version : Option String
  severity : String
  title : String
  description : Option String
  evidence_s3_key : Option String
  evidence_json : Option Json

/-- The VALUES branch of the findings upsert (fresh row). -/
def insertRow (a : Agg) : FindingRow :=
  { occurrences := a.count,
    detector_version := a.detector_version,
    severity := a.severity,
    title := a.title,
    description := a.description,
    evidence_s3_key := a.evidence_s3_key,
    evidence_json := a.evidence_json }

/-- The ON CONFLICT DO UPDATE branch of the findings upsert:
`occurrences += excluded.occurrences`, `detector_version =
coalesce(excluded, old)`, severity replaced whenever the excluded rank is
at least the stored rank, title/description/evidence replaced by the
excluded values. -/
def conflictUpdate (old : FindingRow) (a : Agg) : FindingRow :=
  { occurrences := old.occurrences + a.count,
    detector_version := a.detector_version.orElse fun _ => old.detector_version,
    severity := if sev_rank a.severity ≥ sev_rank old.severity then a.severity else old.severity,
    title := a.title,
    description := a.description,
    evidence_s3_key := a.evidence_s3_key,
    evidence_json := a.evidence_json }

/-- One upsert against the unique key: insert when absent, conflict-update
when present. -/
def upsertFinding : Option FindingRow → Agg → Option FindingRow
  | none, a => some (insertRow a)
  | some old, a => some (conflictUpdate old a)

/-- A sequence of conflict-upserts against one existing aggregate row. -/
def applyUpserts (r : FindingRow) (groups : List Agg) : FindingRow :=
  groups.foldl conflictUpdate r

theorem aggReplace_count (e1 : Agg) (f : FindingIn) :
    (aggReplace e1 f).count = e1.count := by
  unfold aggReplace
  split <;> rfl

theorem aggReplace_dv (e1 : Agg) (f : FindingIn) :
    (aggReplace e1 f).detector_version = e1.detector_version := by
  unfold aggReplace
  split <;> rfl

/-- Every group that one grouping step stores has a positive count,
provided the previous map did. -/
theorem aggStep_count_pos (m : AggMap) (f : FindingIn)
    (h : ∀ k a, m k = some a → 1 ≤ a.count) :
    ∀ k a, aggStep m f k = some a → 1 ≤ a.count := by
  intro k a ha
  cases hu : f.player_uuid with
  | none =>
    simp only [aggStep, hu] at ha
    exact h k a ha
  | some u =>
    simp only [aggStep, hu] at ha
    split at ha
    · exact h k a ha
    · split at ha
      · injection ha with ha
        subst ha
        rw [aggReplace_count]
        show 1 ≤ ((m (u, rustTrim f.detector_name)).getD (aggInit f)).count + 1
        cases hm : m (u, rustTrim f.detector_name) with
        | none => simp [aggInit]
        | some e =>
          have he := h _ _ hm
          simp only [hm, Option.getD]
          omega
      · exact h k a ha

/-- Every group that the request grouping produces has a positive count. -/
theorem aggregate_count_pos (fs : List FindingIn) :
    ∀ k a, aggregateFindings fs k = some a → 1 ≤ a.count := by
  have main : ∀ (fs : List FindingIn) (m : AggMap),
      (∀ k a, m k = some a → 1 ≤ a.count) →
      ∀ k a, fs.foldl aggStep m k = some a → 1 ≤ a.count := by
    intro fs
    induction fs with
    | nil => intro m hm; exact hm
    | cons f fs ih =>
      intro m hm
      exact ih (aggStep m f) (aggStep_count_pos m f hm)
  intro k a ha
  exact main fs (fun _ => none) (by intro k a h; cases h) k a ha

/-- C1: across any sequence of upserts to one aggregate row, a single
conflict-update sets the severity to the rank-maximum of the stored and
incoming severities and adds the incoming count (which the request
grouping guarantees to be at least 1); consequently the severity rank
never decreases and the occurrences value is non-decreasing along the
whole sequence. -/
theorem c1_findings_monotone (groups : List Agg)
    (hg : ∀ a ∈ groups, ∃ fs k, aggregateFindings fs k = some a) (r : FindingRow) :
    (∀ a ∈ groups, ∀ old : FindingRow,
        sev_rank (conflictUpdate old a).severity =
          max (sev_rank old.severity) (sev_rank a.severity) ∧
        (conflictUpdate old a).occurrences = old.occurrences + a.count ∧
        1 ≤ a.count) ∧
    sev_rank r.severity ≤ sev_rank (applyUpserts r groups).severity ∧
    r.occurrences ≤ (applyUpserts r groups).occurrences := by
  have hcounts : ∀ a ∈ groups, 1 ≤ a.count := by
    intro a ha
    obtain ⟨fs, k, hk⟩ := hg a ha
    exact aggregate_count_pos fs k a hk
  constructor
  · intro a ha old
    refine ⟨?_, rfl, hcounts a ha⟩
    unfold conflictUpdate
    by_cases hcmp : sev_rank a.severity ≥ sev_rank old.severity
    · simp only [if_pos hcmp]
      omega
    · simp only [if_neg hcmp]
      omega
  · have step : ∀ (old : FindingRow) (a : Agg), 1 ≤ a.count →
        sev_rank old.severity ≤ sev_rank (conflictUpdate old a).severity ∧
        old.occurrences ≤ (conflictUpdate old a).occurrences := by
      intro old a hc
      unfold conflictUpdate
      refine ⟨?_, by simp only []; omega⟩
      by_cases hcmp : sev_rank a.severity ≥ sev_rank old.severity
      · simp only [if_pos hcmp]
        omega
      · simp only [if_neg hcmp]
        exact le_refl _
    have main : ∀ (gs : List Agg) (r0 : FindingRow),
        (∀ a ∈ gs, 1 ≤ a.count) →
        sev_rank r0.severity ≤ sev_rank (gs.foldl conflictUpdate r0).severity ∧
        r0.occurrences ≤ (gs.foldl conflictUpdate r0).occurrences := by
      intro gs
      induction gs with
      | nil => intro r0 _; exact ⟨le_refl _, le_refl _⟩
      | cons a gs ih =>
        intro r0 hc
        have h1 := step r0 a (hc a (List.mem_cons_self a gs))
        have h2 := ih (conflictUpdate r0 a) (fun b hb => hc b (List.mem_cons_of_mem a hb))
        exact ⟨le_trans h1.1 h2.1, le_trans h1.2 h2.2⟩
    exact main groups r hcounts

/-- A concrete finding used to exercise the aggregation. -/
def exFinding : FindingIn :=
  { player_uuid := some "u",
    detector_name := "d",
    detector_version := some "v1",
    severity := some "high",
    title := "t",
    description := none,
    evidence_s3_key := none,
    evidence_json := none }

/-- The group that aggregating `[exFinding]` produces at key `("u", "d")`. -/
def exGroup : Agg :=
  { count := 1,
    detector_version := some "v1",
    severity := "high",
    title := "t",
    description := none,
    evidence_s3_key := none,
    evidence_json := none }

/-- A concrete stored aggregate row. -/
def exRow : FindingRow :=
  { occurrences := 2,
    detector_version := none,
    severity := "low",
    title := "old",
    description := none,
    evidence_s3_key := none,
    evidence_json := none }

/-- Witness for C1 at a concrete input: one group produced by aggregating
a single concrete finding, applied to a concrete stored row. -/
theorem c1_findings_monotone_witness :
    (∀ a ∈ [exGroup], ∃ fs k, aggregateFindings fs k = some a) ∧
    sev_rank exRow.severity ≤ sev_rank (applyUpserts exRow [exGroup]).severity := by
  have hg : ∀ a ∈ [exGroup], ∃ fs k, aggregateFindings fs k = some a := by
    intro a ha
    rw [List.mem_singleton] at ha
    subst ha
    exact ⟨[exFinding], ("u", "d"), rfl⟩
  exact ⟨hg, (c1_findings_monotone [exGroup] hg exRow).2.1⟩

/-- C10: in the in-request grouping, when an existing group entry meets a
later finding of at least the same severity rank, the later finding
supplies title/description/evidence; a strictly lower-ranked finding
leaves them unchanged; and a finding without a detector_version never
erases a previously seen one. -/
theorem c10_group_tiebreak (m : AggMap) (f : FindingIn) (u dn tt sv : String) (e : Agg)
    (hu : f.player_uuid = some u)
    (hdn : rustTrim f.detector_name = dn)
    (hdne : dn ≠ "")
    (htt : rustTrim f.title = tt)
    (htte : tt ≠ "")
    (hsv : f.severity.getD "info" = sv)
    (he : m (u, dn) = some e) :
    ∃ e', aggStep m f (u, dn) = some e' ∧
      (sev_rank sv ≥ sev_rank e.severity →
        e'.title = tt ∧ e'.description = f.description ∧
        e'.evidence_s3_key = f.evidence_s3_key ∧ e'.evidence_json = f.evidence_json) ∧
      (sev_rank sv < sev_rank e.severity →
        e'.title = e.title ∧ e'.description = e.description ∧
        e'.evidence_s3_key = e.evidence_s3_key ∧ e'.evidence_json = e.evidence_json) ∧
      (f.detector_version = none → e'.detector_version = e.detector_version) := by
  have hbump : (aggBump e f).severity = e.severity := rfl
  have hstep : aggStep m f (u, dn) = some (aggReplace (aggBump e f) f) := by
    simp only [aggStep, hu, hdn, htt]
    rw [if_neg (by push_neg; exact ⟨hdne, htte⟩)]
    rw [if_pos trivial, he]
    rfl
  refine ⟨aggReplace (aggBump e f) f, hstep, ?_, ?_, ?_⟩
  · intro hge
    unfold aggReplace
    rw [hbump, hsv, if_pos hge]
    refine ⟨htt, rfl, rfl, rfl⟩
  · intro hlt
    unfold aggReplace
    rw [hbump, hsv, if_neg (by omega)]
    refine ⟨rfl, rfl, rfl, rfl⟩
  · intro hv
    rw [aggReplace_dv]
    show (f.detector_version.orElse fun _ => e.detector_version) = e.detector_version
    rw [hv]
    rfl

/-- A later finding of equal severity rank for the C10 witness. -/
def exLater : FindingIn :=
  { player_uuid := some "u",
    detector_name := "d",
    detector_version := none,
    severity := some "low",
    title := "later",
    description := some "d2",
    evidence_s3_key := none,
    evidence_json := none }

/-- The group entry already stored before `exLater` is processed. -/
def exEarlier : Agg :=
  { count := 1,
    detector_version := some "v0",
    severity := "low",
    title := "earlier",
    description := some "d1",
    evidence_s3_key := none,
    evidence_json := none }

/-- The grouping map holding `exEarlier` at key `("u", "d")`. -/
def exMap : AggMap := fun k => if k = ("u", "d") then some exEarlier else none

/-- Witness for C10 at a concrete state and finding. -/
theorem c10_group_tiebreak_witness :
    exLater.player_uuid = some "u" ∧
    ∃ e', aggStep exMap exLater ("u", "d") = some e' ∧
      (sev_rank "low" ≥ sev_rank exEarlier.severity →
        e'.title = "later" ∧ e'.description = exLater.description ∧
        e'.evidence_s3_key = exLater.evidence_s3_key ∧
        e'.evidence_json = exLater.evidence_json) ∧
      (sev_rank "low" < sev_rank exEarlier.severity →
        e'.title = exEarlier.title ∧ e'.description = exEarlier.description ∧
        e'.evidence_s3_key = exEarlier.evidence_s3_key ∧
        e'.evidence_json = exEarlier.evidence_json) ∧
      (exLater.detector_version = none → e'.detector_version = exEarlier.detector_version) := by
  refine ⟨rfl, ?_⟩
  exact c10_group_tiebreak exMap exLater "u" "d" "later" "low" exEarlier
    rfl rfl (by decide) rfl (by decide) rfl rfl

/-! ## yaw_difference (src/api/src/transforms.rs) -/

/-- `yaw_difference` from transforms.rs: absolute difference with
wrap-around at 360 degrees; f64 modelled by exact rationals. -/
def yaw_difference (yaw1 yaw2 : ℚ) : ℚ :=
  let diff := |yaw1 - yaw2|
  if diff > 180 then 360 - diff else diff

/-- C9: yaw_difference is symmetric and never exceeds 180. -/
theorem c9_yaw_wrap (a b : ℚ) :
    yaw_difference a b = yaw_difference b a ∧ yaw_difference a b ≤ 180 := by
  have habs : |a - b| = |b - a| := abs_sub_comm a b
  constructor
  · unfold yaw_difference
    rw [habs]
  · unfold yaw_difference
    by_cases h : |a - b| > 180
    · simp only [if_pos h]
      linarith
    · simp only [if_neg h]
      linarith

/-! ## Bearer comparison (routes/callbacks.rs require_callback_auth and
auth.rs constant_time_eq)

Timing is modelled by counting the character comparisons a comparison
performs: a short-circuit scan stops at the first mismatch, the subtle
crate's `ct_eq` always visits every position. -/

/-- Short-circuit scan underlying Rust string equality (the memcmp timing
model): result together with the number of comparisons performed. -/
def scanEq : List Char → List Char → Bool × Nat
  | [], [] => (true, 0)
  | [], _ :: _ => (false, 0)
  | _ :: _, [] => (false, 0)
  | a :: as, b :: bs =>
    if a = b then
      let r := scanEq as bs
      (r.1, r.2 + 1)
    else (false, 1)

/-- Rust `str` equality `auth != expected`: length check, then the
short-circuit scan. -/
def rustStrEq (a b : String) : Bool × Nat :=
  if a.length = b.length then scanEq a.toList b.toList else (false, 0)

/-- The subtle crate's `ct_eq` on equal-length buffers: visits every
position regardless of mismatches. -/
def ctScan : List Char → List Char → Bool × Nat
  | [], [] => (true, 0)
  | [], _ :: _ => (false, 0)
  | _ :: _, [] => (false, 0)
  | a :: as, b :: bs =>
    let r := ctScan as bs
    (decide (a = b) && r.1, r.2 + 1)

/-- `constant_time_eq` from auth.rs: on matching lengths a full `ct_eq`
scan; otherwise a dummy compare of a zero buffer of `b`'s length against
`b` before returning false. -/
def constant_time_eq (a b : String) : Bool × Nat :=
  if a.length = b.length then ctScan a.toList b.toList
  else (false, (ctScan (List.replicate b.toList.length (Char.ofNat 0)) b.toList).2)

/-- `require_callback_auth` from routes/callbacks.rs: rejects when the
configured module_callback_token is empty (short-circuiting before any
comparison) and otherwise compares the presented authorization header
against `"Bearer " ++ token` with plain Rust string equality.  Returns
whether the request is accepted together with the comparison cost. -/
def require_callback_auth (module_callback_token : String) (authHeader : String) :
    Bool × Nat :=
  if module_callback_token = "" then (false, 0)
  else
    let cmp := rustStrEq authHeader ("Bearer " ++ module_callback_token)
    (cmp.1, cmp.2)

/-- Length of the common prefix of two character lists. -/
def commonPrefixLen : List Char → List Char → Nat
  | a :: as, b :: bs => if a = b then commonPrefixLen as bs + 1 else 0
  | _, _ => 0

theorem ctScan_cost (xs : List Char) :
    ∀ ys, (ctScan xs ys).2 = min xs.length ys.length := by
  induction xs with
  | nil => intro ys; cases ys <;> simp [ctScan]
  | cons a as ih =>
    intro ys
    cases ys with
    | nil => simp [ctScan]
    | cons b bs =>
      simp only [ctScan, List.length_cons, ih bs]
      omega

theorem scanEq_cost (xs : List Char) :
    ∀ ys, (scanEq xs ys).2 = min (commonPrefixLen xs ys + 1) (min xs.length ys.length) := by
  induction xs with
  | nil => intro ys; cases ys <;> simp [scanEq, commonPrefixLen]
  | cons a as ih =>
    intro ys
    cases ys with
    | nil => simp [scanEq, commonPrefixLen]
    | cons b bs =>
      by_cases hab : a = b
      · subst hab
        simp [scanEq, commonPrefixLen, ih bs]
        omega
      · simp [scanEq, commonPrefixLen, hab]

theorem scanEq_correct (xs : List Char) :
    ∀ ys, (scanEq xs ys).1 = true ↔ xs = ys := by
  induction xs with
  | nil => intro ys; cases ys <;> simp [scanEq]
  | cons a as ih =>
    intro ys
    cases ys with
    | nil => simp [scanEq]
    | cons b bs =>
      by_cases hab : a = b
      · subst hab
        simp [scanEq, ih bs]
      · simp [scanEq, hab]

/-- C4 (amended): the callback bearer check of post_findings uses plain
short-circuit string equality, whose cost on equal-length inputs is
determined by (and grows with) the length of the matching prefix — it is
not constant-time; by contrast `constant_time_eq` from auth.rs (not
invoked by require_callback_auth) always performs work equal to the
stored value's length, independently of the matching prefix. -/
theorem c4_callback_auth_timing (a b tok auth : String)
    (htok : tok ≠ "")
    (hlen : auth.length = ("Bearer " ++ tok).length) :
    (constant_time_eq a b).2 = b.toList.length ∧
    (require_callback_auth tok auth).2 =
      min (commonPrefixLen auth.toList ("Bearer " ++ tok).toList + 1)
        (("Bearer " ++ tok).toList.length) ∧
    ((require_callback_auth tok auth).1 = true ↔ auth = "Bearer " ++ tok) := by
  refine ⟨?_, ?_, ?_⟩
  · unfold constant_time_eq
    split
    · rw [ctScan_cost]
      have ha : a.toList.length = a.length := rfl
      have hb : b.toList.length = b.length := rfl
      omega
    · rw [ctScan_cost, List.length_replicate]
      omega
  · unfold require_callback_auth rustStrEq
    rw [if_neg htok, if_pos hlen, scanEq_cost]
    have h1 : auth.toList.length = auth.length := rfl
    have h2 : ("Bearer " ++ tok).toList.length = ("Bearer " ++ tok).length := rfl
    omega
  · unfold require_callback_auth rustStrEq
    rw [if_neg htok, if_pos hlen]
    simp only []
    rw [scanEq_correct]
    constructor
    · intro h
      have := congrArg String.mk h
      simpa using this
    · intro h
      rw [h]

/-- Witness for the amended C4 at concrete strings. -/
theorem c4_callback_auth_timing_witness :
    ("aaaa" : String) ≠ "" ∧
    ("Bearer aaab" : String).length = ("Bearer " ++ "aaaa").length ∧
    (constant_time_eq "x" "secret").2 = ("secret" : String).toList.length ∧
    ((require_callback_auth "aaaa" "Bearer aaab").1 = true ↔
      ("Bearer aaab" : String) = "Bearer " ++ "aaaa") := by
  refine ⟨by decide, by decide, ?_, ?_⟩
  · exact (c4_callback_auth_timing "x" "secret" "aaaa" "Bearer aaab" (by decide) (by decide)).1
  · exact (c4_callback_auth_timing "x" "secret" "aaaa" "Bearer aaab" (by decide) (by decide)).2.2

/-- Counterexample to C4 as stated: two presented headers of the same
length as the expected value, one matching on a 10-character prefix and
one mismatching immediately, make require_callback_auth perform a
different number of comparisons — the comparison time depends on the
matching prefix length, so it is not constant-time. -/
theorem c4_counterexample :
    (require_callback_auth "aaaa" "Bearer aaab").1 = false ∧
    (require_callback_auth "aaaa" "Xearer aaaa").1 = false ∧
    ("Bearer aaab" : String).length = ("Xearer aaaa" : String).length ∧
    (require_callback_auth "aaaa" "Bearer aaab").2 = 11 ∧
    (require_callback_auth "aaaa" "Xearer aaaa").2 = 1 := by
  decide

/-! ## Module dispatch and health (src/api/src/module_pipeline.rs,
transforms.rs apply_transform) -/

/-- Rust `char::to_ascii_lowercase`. -/
def asciiLower (c : Char) : Char :=
  if 'A' ≤ c ∧ c ≤ 'Z' then Char.ofNat (c.toNat + 32) else c

/-- Rust `str::eq_ignore_ascii_case`. -/
def eqIgnoreAsciiCase (a b : String) : Bool :=
  a.toList.map asciiLower == b.toList.map asciiLower

/-- The outcome of `apply_transform` (transforms.rs:12-31), abstracted
over whether the batch body is decodable (`bodyOk`): an empty or
raw_ndjson_gz tag returns the raw bytes without touching the body and
always succeeds; the three v1 tags run the gzip line loop, whose
`read_line(..)?` propagates decode failures, so they succeed exactly
when the body decodes; any other tag bails with "unsupported transform"
before any decoding.  (The line-level transform embedding above starts
from already-decoded lines, so only success or failure matters here.) -/
def apply_transform_ok (transform : String) (bodyOk : Bool) : Bool :=
  let t := rustTrim transform
  if t == "" || eqIgnoreAsciiCase t "raw_ndjson_gz" then true
  else if eqIgnoreAsciiCase t "movement_events_v1_ndjson_gz"
      || eqIgnoreAsciiCase t "combat_events_v1_ndjson_gz"
      || eqIgnoreAsciiCase t "ncp_fight_v1_ndjson_gz" then bodyOk
  else false

/-- The health-relevant columns of a server_modules row. -/
structure ModuleRow where
  enabled : Bool
  transform : String
  last_healthcheck_ok : Option Bool
  consecutive_failures : Int
  last_error : Option String

/-- `mark_module_ok`: reset failures, clear the error, mark healthy. -/
def mark_module_ok (m : ModuleRow) : ModuleRow :=
  { m with
    consecutive_failures := 0,
    last_error := none,
    last_healthcheck_ok := some true }

/-- `mark_module_failure`: bump failures, store the error, mark unhealthy. -/
def mark_module_failure (m : ModuleRow) (err : String) : ModuleRow :=
  { m with
    consecutive_failures := m.consecutive_failures + 1,
    last_error := some err,
    last_healthcheck_ok := some false }

/-- Result of the outbound HTTP POST. -/
inductive HttpOutcome where
  | response (status : Nat)
  | transportError

/-- reqwest `StatusCode::is_success`: 2xx. -/
def isSuccessStatus (s : Nat) : Bool :=
  decide (200 ≤ s) && decide (s < 300)

/-- The dispatch_batch loop body for one enabled module
(module_pipeline.rs:52-137): skip (no HTTP call, row untouched) when
`last_healthcheck_ok == Some(false)` and `consecutive_failures >= 3`;
when apply_transform fails on this module's tag and this batch's body,
record the failure without any HTTP call; otherwise POST and apply the
outcome.  `bodyOk` says whether the batch body decodes; the returned
boolean records whether the HTTP POST was issued. -/
def dispatchStep (m : ModuleRow) (bodyOk : Bool) (out : HttpOutcome) :
    Bool × ModuleRow :=
  if m.last_healthcheck_ok = some false ∧ 3 ≤ m.consecutive_failures then
    (false, m)
  else if apply_transform_ok m.transform bodyOk = false then
    (false, mark_module_failure m "transform failed")
  else
    match out with
    | .response s =>
        if isSuccessStatus s then (true, mark_module_ok m)
        else (true, mark_module_failure m "module returned http error")
    | .transportError => (true, mark_module_failure m "dispatch error")

/-- `mark_health`: outcome application of one healthcheck_tick probe. -/
def mark_health (m : ModuleRow) (ok : Bool) : ModuleRow :=
  if ok then mark_module_ok m else mark_module_failure m "healthcheck failed"

/-- A sequence of dispatches, each with its own batch (body decodability
and HTTP outcome); returns whether any POST was issued and the final
row. -/
def dispatchMany (m : ModuleRow) (steps : List (Bool × HttpOutcome)) :
    Bool × ModuleRow :=
  steps.foldl (fun acc p =>
    let r := dispatchStep acc.2 p.1 p.2
    (acc.1 || r.1, r.2)) (false, m)

/-- C5 (amended): while a module row sits in the skip state
(`last_healthcheck_ok = Some(false)` and at least three consecutive
failures), any sequence of dispatches issues no HTTP POST and leaves the
row unchanged; a successful dispatch response (2xx) or health probe
resets the row to zero failures and healthy; and from the reset state the
next dispatch issues the POST provided apply_transform succeeds for the
module's tag and that batch's body (it always fails on an unsupported
tag, and fails on a v1 tag when the gzip body does not decode; a
transform failure skips the POST and records a dispatch failure). -/
theorem c5_health_skip (m : ModuleRow) (steps : List (Bool × HttpOutcome))
    (s : Nat) (bodyOk bodyOk2 : Bool) (out2 : HttpOutcome) :
    (m.last_healthcheck_ok = some false → 3 ≤ m.consecutive_failures →
      dispatchMany m steps = (false, m)) ∧
    (mark_health m true = mark_module_ok m ∧
      (mark_module_ok m).consecutive_failures = 0 ∧
      (mark_module_ok m).last_healthcheck_ok = some true) ∧
    (¬(m.last_healthcheck_ok = some false ∧ 3 ≤ m.consecutive_failures) →
      apply_transform_ok m.transform bodyOk = true → isSuccessStatus s = true →
      dispatchStep m bodyOk (.response s) = (true, mark_module_ok m)) ∧
    (apply_transform_ok m.transform bodyOk2 = true →
      (dispatchStep (mark_module_ok m) bodyOk2 out2).1 = true) ∧
    (apply_transform_ok m.transform bodyOk2 = false →
      (dispatchStep (mark_module_ok m) bodyOk2 out2).1 = false) := by
  refine ⟨?_, ⟨rfl, rfl, rfl⟩, ?_, ?_, ?_⟩
  · intro hok hfail
    have hstep : ∀ b o, dispatchStep m b o = (false, m) := by
      intro b o
      unfold dispatchStep
      rw [if_pos ⟨hok, hfail⟩]
    have main : ∀ (ps : List (Bool × HttpOutcome)) (b : Bool),
        ps.foldl (fun acc p =>
          let r := dispatchStep acc.2 p.1 p.2
          (acc.1 || r.1, r.2)) (b, m) = (b, m) := by
      intro ps
      induction ps with
      | nil => intro b; rfl
      | cons p ps ih =>
        intro b
        simp only [List.foldl_cons, hstep, Bool.or_false]
        exact ih b
    unfold dispatchMany
    exact main steps false
  · intro hskip hsupp hsucc
    unfold dispatchStep
    rw [if_neg hskip, if_neg (by rw [hsupp]; simp)]
    show (if isSuccessStatus s = true then (true, mark_module_ok m)
      else (true, mark_module_failure m "module returned http error")) =
      (true, mark_module_ok m)
    rw [if_pos hsucc]
  · intro hsupp
    unfold dispatchStep
    rw [if_neg (by simp [mark_module_ok])]
    rw [if_neg (by
      show ¬ apply_transform_ok (mark_module_ok m).transform bodyOk2 = false
      show ¬ apply_transform_ok m.transform bodyOk2 = false
      rw [hsupp]
      simp)]
    cases out2 with
    | response s2 =>
      show (if isSuccessStatus s2 = true then (true, mark_module_ok (mark_module_ok m))
        else (true, mark_module_failure (mark_module_ok m) "module returned http error")).1 =
        true
      by_cases hs : isSuccessStatus s2 = true
      · rw [if_pos hs]
      · rw [if_neg hs]
    | transportError => rfl
  · intro hfailtf
    unfold dispatchStep
    rw [if_neg (by simp [mark_module_ok])]
    rw [if_pos (by
      show apply_transform_ok m.transform bodyOk2 = false
      exact hfailtf)]

/-- A module row in the skip state, carrying a supported transform tag. -/
def exSkipped : ModuleRow :=
  { enabled := true,
    transform := "raw_ndjson_gz",
    last_healthcheck_ok := some false,
    consecutive_failures := 3,
    last_error := some "module returned http error" }

/-- Witness for the amended C5 at a concrete skipped module: no POST over
a burst of dispatches, recovery via a successful probe, POST issued
afterwards. -/
theorem c5_health_skip_witness :
    exSkipped.last_healthcheck_ok = some false ∧
    (3 : Int) ≤ exSkipped.consecutive_failures ∧
    apply_transform_ok exSkipped.transform true = true ∧
    dispatchMany exSkipped [(true, .response 200), (false, .transportError)] =
      (false, exSkipped) ∧
    (dispatchStep (mark_module_ok exSkipped) true (.response 200)).1 = true := by
  have h := c5_health_skip exSkipped [(true, .response 200), (false, .transportError)]
    200 true true (.response 200)
  refine ⟨rfl, by decide, by decide, h.1 rfl (by decide), h.2.2.2.1 (by decide)⟩

/-- A healthy, enabled module row whose transform tag is not one of the
supported ones. -/
def exBadTransform : ModuleRow :=
  { enabled := true,
    transform := "bogus_transform_tag",
    last_healthcheck_ok := some true,
    consecutive_failures := 0,
    last_error := none }

/-- A healthy, enabled module row with a supported v1 transform tag. -/
def exV1Module : ModuleRow :=
  { enabled := true,
    transform := "movement_events_v1_ndjson_gz",
    last_healthcheck_ok := some true,
    consecutive_failures := 0,
    last_error := none }

/-- Counterexample to C5 as stated: in the healthy state (zero failures,
last_healthcheck_ok = true) the next dispatch still issues no HTTP POST
whenever apply_transform fails - for an unsupported tag, and equally for
a supported v1 tag fed a batch body that does not decode; the transform
error path skips the POST and records a failure instead. -/
theorem c5_counterexample :
    exBadTransform.last_healthcheck_ok = some true ∧
    exBadTransform.consecutive_failures = 0 ∧
    (dispatchStep exBadTransform true (.response 200)).1 = false ∧
    exV1Module.last_healthcheck_ok = some true ∧
    exV1Module.consecutive_failures = 0 ∧
    (dispatchStep exV1Module false (.response 200)).1 = false := by
  refine ⟨rfl, rfl, by decide, rfl, rfl, by decide⟩

/-! ## Object-store keys and the ingest pipeline
(src/api/src/s3.rs, src/api/src/routes/ingest.rs)

The handler is embedded as a pure function from an environment holding
the request headers and every environment read (server table, the two
`Utc::now()` date reads, the generated batch UUID, blob-write success)
to the ordered trace of database/object-store operations plus the HTTP
response. -/

/-- `ObjectStore::batch_key` from src/api/src/s3.rs with the `Utc::now()`
date read made an explicit argument (already formatted as YYYY-MM-DD). -/
def batch_key (date server_id session_id batch_id : String) : String :=
  "events/" ++ server_id ++ "/" ++ date ++ "/" ++ session_id ++ "/" ++
    batch_id ++ ".ndjson.gz"

/-- Modelled from the spec: sanitization of a key component "strips path
separators and leading dots" (spec §4.3).  The sanitizing key builder the
ingest handler calls is absent from the snapshot (the caller at
src/api/src/routes/ingest.rs:202 expects an Option while s3.rs still
holds the unsanitized String version), so it is reconstructed from the
spec here. -/
def sanitize_component (s : String) : String :=
  String.mk ((s.toList.filter fun c => !(c == '/') && !(c == '\\')).dropWhile
    fun c => c == '.')

/-- Modelled from the spec: the Option-returning batch key used by the
ingest handler - none when either component sanitizes to empty, otherwise
the batch_key over the sanitized components. -/
def batch_key_sanitized (date server_id session_id batch_id : String) : Option String :=
  if sanitize_component server_id = "" ∨ sanitize_component session_id = "" then none
  else some (batch_key date (sanitize_component server_id)
    (sanitize_component session_id) batch_id)

/-- `ObjectStore::put_batch` from src/api/src/s3.rs: derives the key
itself via `batch_key` over the raw identifiers at put time (a second
clock read) and stores the blob under that key. -/
def put_batch (putDate server_id session_id batch_id : String) : String :=
  batch_key putDate server_id session_id batch_id

/-- `sha256_hex`, modelled as an injective tagging (standing in for
collision-free SHA-256). -/
def sha256_hex (s : String) : String := "sha256:" ++ s

/-- A servers-table row as read by the registration gate;
`registered` abbreviates `owner_user_id.is_some() && registered_at.is_some()`. -/
structure ServerRow where
  auth_token_hash : Option String
  registered : Bool
  deriving DecidableEq

/-- Database / object-store operations performed by the ingest handler,
in execution order. -/
inductive DbOp where
  | selectServer (server_id : String)
  | insertPendingServer (server_id : String)
  | updateServerSeen (server_id : String)
  | storeFirstToken (server_id : String)
  | upsertServer (server_id : String)
  | ensureBuiltinModules (server_id : String)
  | insertBatchIndex (batch_id s3_key : String)
  | blobPut (key : String)
  deriving DecidableEq

/-- The HTTP responses the ingest handler can produce. -/
inductive IngestResponse where
  | badRequest (msg : String)
  | unauthorized
  | conflictWaiting (server_id : String)
  | internalError
  | okResponse (batch_id s3_key : String)
  deriving DecidableEq

/-- The inputs of one POST /ingest execution. -/
structure IngestEnv where
  server_id_header : String
  session_id_header : String
  bearer : Option String
  body_len : Nat
  max_body_bytes : Nat
  servers : String → Option ServerRow
  keyDate : String
  putDate : String
  batch_id : String
  blobOk : Bool

/-- The post-gate part of the ingest handler: pending short-circuit,
key computation (400 when a component sanitizes to empty), server
upsert, builtin-module seeding, batch_index insert, then the blob write
(which derives its own key via put_batch). -/
def ingestAfterGate (env : IngestEnv) (server_id session_id : String)
    (gateOps : List DbOp) (row : ServerRow) : List DbOp × IngestResponse :=
  if row.registered = false then
    (gateOps, .conflictWaiting server_id)
  else
    match batch_key_sanitized env.keyDate server_id session_id env.batch_id with
    | none =>
        (gateOps, .badRequest "Invalid server_id or session_id: sanitizes to empty string")
    | some s3_key =>
      let ops1 := gateOps ++ [.upsertServer server_id, .ensureBuiltinModules server_id,
        .insertBatchIndex env.batch_id s3_key]
      if env.blobOk then
        (ops1 ++ [.blobPut (put_batch env.putDate server_id session_id env.batch_id)],
          .okResponse env.batch_id s3_key)
      else
        (ops1, .internalError)

/-- The ingest handler (src/api/src/routes/ingest.rs): header checks,
size cap, bearer parse, registration gate (new server inserted pending
with a 409; existing server's token validated constant-time before the
last_seen bump and optional first-token store), then `ingestAfterGate`. -/
def ingest (env : IngestEnv) : List DbOp × IngestResponse :=
  let server_id := rustTrim env.server_id_header
  let session_id := rustTrim env.session_id_header
  if server_id = "" ∨ session_id = "" then
    ([], .badRequest "missing X-Server-Id or X-Session-Id")
  else if env.max_body_bytes < env.body_len then
    ([], .badRequest "payload too large")
  else
    match env.bearer with
    | none => ([], .unauthorized)
    | some token =>
      match env.servers server_id with
      | none =>
          ([.selectServer server_id, .insertPendingServer server_id],
            .conflictWaiting server_id)
      | some row =>
        match row.auth_token_hash with
        | some stored =>
          if (constant_time_eq (sha256_hex token) stored).1 = false then
            ([.selectServer server_id], .unauthorized)
          else
            ingestAfterGate env server_id session_id
              [.selectServer server_id, .updateServerSeen server_id] row
        | none =>
          ingestAfterGate env server_id session_id
            [.selectServer server_id, .updateServerSeen server_id,
              .storeFirstToken server_id] row

/-- The batch_index keys recorded by a trace. -/
def indexKeys : List DbOp → List String
  | [] => []
  | .insertBatchIndex _ k :: ops => k :: indexKeys ops
  | _ :: ops => indexKeys ops

/-- The blob keys written by a trace. -/
def blobKeys : List DbOp → List String
  | [] => []
  | .blobPut k :: ops => k :: blobKeys ops
  | _ :: ops => blobKeys ops

/-- A registered server row whose stored hash matches the bearer "T". -/
def exRegisteredRow : ServerRow :=
  { auth_token_hash := some (sha256_hex "T"), registered := true }

/-- A valid ingest request that starts just before UTC midnight: the s3
key is computed on 2024-01-01 but the blob write's own clock read falls
on 2024-01-02. -/
def exEnvMidnight : IngestEnv :=
  { server_id_header := "s1",
    session_id_header := "x",
    bearer := some "T",
    body_len := 10,
    max_body_bytes := 100,
    servers := fun id => if id = "s1" then some exRegisteredRow else none,
    keyDate := "2024-01-01",
    putDate := "2024-01-02",
    batch_id := "b1",
    blobOk := true }

/-- A same-date ingest request whose server_id contains a path
separator, so sanitization changes it. -/
def exEnvSlash : IngestEnv :=
  { server_id_header := "a/b",
    session_id_header := "x",
    bearer := some "T",
    body_len := 10,
    max_body_bytes := 100,
    servers := fun id => if id = "a/b" then some exRegisteredRow else none,
    keyDate := "2024-01-01",
    putDate := "2024-01-01",
    batch_id := "b1",
    blobOk := true }

/-- C2: evaluation at the failing inputs.  put_batch derives the blob key
from the raw identifiers at put time, while the batch_index row records
the sanitized key computed earlier: across a midnight rollover, and for
any identifier that sanitization changes, the ingest trace stores the
blob under a key different from every recorded s3_key - a blob exists
whose key matches no batch_index row, and the key actually used by
put_batch is not the s3_key the row (and the response) carries. -/
theorem c2_index_blob_key_mismatch :
    indexKeys (ingest exEnvMidnight).1 = ["events/s1/2024-01-01/x/b1.ndjson.gz"] ∧
    blobKeys (ingest exEnvMidnight).1 = ["events/s1/2024-01-02/x/b1.ndjson.gz"] ∧
    (ingest exEnvMidnight).2 = .okResponse "b1" "events/s1/2024-01-01/x/b1.ndjson.gz" ∧
    indexKeys (ingest exEnvSlash).1 = ["events/ab/2024-01-01/x/b1.ndjson.gz"] ∧
    blobKeys (ingest exEnvSlash).1 = ["events/a/b/2024-01-01/x/b1.ndjson.gz"] ∧
    (ingest exEnvSlash).2 = .okResponse "b1" "events/ab/2024-01-01/x/b1.ndjson.gz" := by
  decide

theorem ingestAfterGate_ok (env : IngestEnv) (sid sess : String)
    (ops : List DbOp) (row : ServerRow) (b k : String)
    (h : (ingestAfterGate env sid sess ops row).2 = .okResponse b k) :
    b = env.batch_id ∧
    batch_key_sanitized env.keyDate sid sess env.batch_id = some k := by
  unfold ingestAfterGate at h
  split at h
  · simp at h
  · split at h
    · simp at h
    · split at h
      · simp only [IngestResponse.okResponse.injEq] at h
        refine ⟨h.1.symm, ?_⟩
        rename_i hsome _
        rw [hsome, h.2]
      · simp at h

theorem ingestAfterGate_noKey (env : IngestEnv) (sid sess : String)
    (ops : List DbOp) (row : ServerRow)
    (hnone : batch_key_sanitized env.keyDate sid sess env.batch_id = none) :
    ingestAfterGate env sid sess ops row = (ops, .conflictWaiting sid) ∨
    ingestAfterGate env sid sess ops row =
      (ops, .badRequest "Invalid server_id or session_id: sanitizes to empty string") := by
  unfold ingestAfterGate
  split
  · left; rfl
  · rw [hnone]
    right
    rfl

theorem ingest_ok_shape (env : IngestEnv) (b k : String)
    (h : (ingest env).2 = .okResponse b k) :
    b = env.batch_id ∧
    batch_key_sanitized env.keyDate (rustTrim env.server_id_header)
      (rustTrim env.session_id_header) env.batch_id = some k := by
  unfold ingest at h
  simp only [] at h
  by_cases h1 : rustTrim env.server_id_header = "" ∨ rustTrim env.session_id_header = ""
  · rw [if_pos h1] at h
    exact absurd h (by simp)
  · rw [if_neg h1] at h
    by_cases h2 : env.max_body_bytes < env.body_len
    · rw [if_pos h2] at h
      exact absurd h (by simp)
    · rw [if_neg h2] at h
      cases hb : env.bearer with
      | none =>
        rw [hb] at h
        exact absurd h (by simp)
      | some token =>
        rw [hb] at h
        simp only [] at h
        cases hs : env.servers (rustTrim env.server_id_header) with
        | none =>
          rw [hs] at h
          exact absurd h (by simp)
        | some row =>
          rw [hs] at h
          simp only [] at h
          cases hh : row.auth_token_hash with
          | some stored =>
            rw [hh] at h
            simp only [] at h
            by_cases ht : (constant_time_eq (sha256_hex token) stored).1 = false
            · rw [if_pos ht] at h
              exact absurd h (by simp)
            · rw [if_neg ht] at h
              exact ingestAfterGate_ok _ _ _ _ _ _ _ h
          | none =>
            rw [hh] at h
            simp only [] at h
            exact ingestAfterGate_ok _ _ _ _ _ _ _ h

theorem ingest_noKey (env : IngestEnv)
    (hnone : batch_key_sanitized env.keyDate (rustTrim env.server_id_header)
      (rustTrim env.session_id_header) env.batch_id = none) :
    indexKeys (ingest env).1 = [] ∧ blobKeys (ingest env).1 = [] ∧
    ∀ b k, (ingest env).2 ≠ .okResponse b k := by
  have hshape : ∃ ops resp, ingest env = (ops, resp) ∧ indexKeys ops = [] ∧
      blobKeys ops = [] ∧ ∀ b k, resp ≠ .okResponse b k := by
    unfold ingest
    simp only []
    by_cases h1 : rustTrim env.server_id_header = "" ∨ rustTrim env.session_id_header = ""
    · rw [if_pos h1]
      exact ⟨_, _, rfl, rfl, rfl, by simp⟩
    · rw [if_neg h1]
      by_cases h2 : env.max_body_bytes < env.body_len
      · rw [if_pos h2]
        exact ⟨_, _, rfl, rfl, rfl, by simp⟩
      · rw [if_neg h2]
        cases hb : env.bearer with
        | none => exact ⟨_, _, rfl, rfl, rfl, by simp⟩
        | some token =>
          simp only []
          cases hs : env.servers (rustTrim env.server_id_header) with
          | none => exact ⟨_, _, rfl, by simp [indexKeys], by simp [blobKeys], by simp⟩
          | some row =>
            simp only []
            have hgate : ∀ ops0 : List DbOp, indexKeys ops0 = [] → blobKeys ops0 = [] →
                ∃ ops resp,
                  ingestAfterGate env (rustTrim env.server_id_header)
                    (rustTrim env.session_id_header) ops0 row = (ops, resp) ∧
                  indexKeys ops = [] ∧ blobKeys ops = [] ∧
                  ∀ b k, resp ≠ .okResponse b k := by
              intro ops0 hi hb0
              rcases ingestAfterGate_noKey env _ _ ops0 row hnone with hcase | hcase
              · exact ⟨_, _, hcase, hi, hb0, by simp⟩
              · exact ⟨_, _, hcase, hi, hb0, by simp⟩
            cases hh : row.auth_token_hash with
            | some stored =>
              simp only []
              by_cases ht : (constant_time_eq (sha256_hex token) stored).1 = false
              · rw [if_pos ht]
                exact ⟨_, _, rfl, by simp [indexKeys], by simp [blobKeys], by simp⟩
              · rw [if_neg ht]
                exact hgate _ (by simp [indexKeys]) (by simp [blobKeys])
            | none =>
              exact hgate _ (by simp [indexKeys]) (by simp [blobKeys])
  obtain ⟨ops, resp, heq, hi, hb, hr⟩ := hshape
  rw [heq]
  exact ⟨hi, hb, hr⟩

/-- C3 (amended): the batch key is pure in the triple together with the
UTC date of the invocation - every successful ingest returns exactly the
key that batch_key_sanitized yields for its keyDate and trimmed
identifiers; and whenever a component sanitizes to empty the handler
never succeeds and performs no batch_index insert and no blob write (a
400 once the registration gate has passed, whose server-row reads and
updates may already have happened). -/
theorem c3_key_determinism (env env2 : IngestEnv)
    (hsan : sanitize_component (rustTrim env.server_id_header) = "" ∨
            sanitize_component (rustTrim env.session_id_header) = "") :
    (∀ b k, (ingest env2).2 = .okResponse b k →
        b = env2.batch_id ∧
        batch_key_sanitized env2.keyDate (rustTrim env2.server_id_header)
          (rustTrim env2.session_id_header) env2.batch_id = some k) ∧
    (∀ b k, (ingest env).2 ≠ .okResponse b k) ∧
    indexKeys (ingest env).1 = [] ∧
    blobKeys (ingest env).1 = [] := by
  have hnone : batch_key_sanitized env.keyDate (rustTrim env.server_id_header)
      (rustTrim env.session_id_header) env.batch_id = none := by
    unfold batch_key_sanitized
    rw [if_pos hsan]
  have hk := ingest_noKey env hnone
  exact ⟨fun b k h => ingest_ok_shape env2 b k h, hk.2.2, hk.1, hk.2.1⟩

/-- An ingest request whose server_id is all dots: nonempty, passes the
gate against a registered row, but sanitizes to empty. -/
def exEnvDots : IngestEnv :=
  { server_id_header := "...",
    session_id_header := "x",
    bearer := some "T",
    body_len := 10,
    max_body_bytes := 100,
    servers := fun id => if id = "..." then some exRegisteredRow else none,
    keyDate := "2024-01-01",
    putDate := "2024-01-01",
    batch_id := "b1",
    blobOk := true }

/-- Witness for the amended C3 at concrete environments. -/
theorem c3_key_determinism_witness :
    (sanitize_component (rustTrim exEnvDots.server_id_header) = "" ∨
      sanitize_component (rustTrim exEnvDots.session_id_header) = "") ∧
    (∀ b k, (ingest exEnvDots).2 ≠ .okResponse b k) ∧
    indexKeys (ingest exEnvDots).1 = [] ∧
    blobKeys (ingest exEnvDots).1 = [] := by
  have h := c3_key_determinism exEnvDots exEnvMidnight (by decide)
  exact ⟨by decide, h.2.1, h.2.2.1, h.2.2.2⟩

/-- Counterexample to C3 as stated: the key is not a function of the
triple alone - the same (server_id, session_id, batch_id) yields
different strings on different UTC dates; and on the sanitizes-to-empty
path the handler has already performed database I/O (the registration
gate's select and last_seen update) before returning the 400. -/
theorem c3_counterexample :
    batch_key "2024-01-01" "s1" "x" "b1" ≠ batch_key "2024-01-02" "s1" "x" "b1" ∧
    (ingest exEnvDots).2 =
      .badRequest "Invalid server_id or session_id: sanitizes to empty string" ∧
    (ingest exEnvDots).1 = [.selectServer "...", .updateServerSeen "..."] := by
  decide

/-! ## Heartbeat (src/api/src/routes/heartbeat.rs) -/

/-- `parse_bearer_token` (heartbeat.rs / auth.rs): case-insensitive
"bearer " prefix with a non-empty remainder requirement relaxed to a
length check, remainder trimmed.  Byte slicing is modelled on chars (all
relevant strings are ASCII). -/
def parse_bearer_token (auth_header : String) : Option String :=
  let auth := rustTrim auth_header
  if auth.length ≤ ("bearer " : String).length then none
  else if eqIgnoreAsciiCase (String.mk (auth.toList.take 7)) "bearer " = false then none
  else some (rustTrim (String.mk (auth.toList.drop 7)))

/-- Database operations of the heartbeat handler.  The handler never
inserts a server row; `insertPendingServer` is included so that the
spec's expected behaviour is expressible about its traces. -/
inductive HbOp where
  | selectServerByIdAndHash (server_id token_hash : String)
  | updateLastSeen (server_id : String)
  | insertPendingServer (server_id : String)
  deriving DecidableEq

/-- Responses of the heartbeat handler.  `conflictWaiting` is included so
that the spec's expected 409 is expressible; the handler's code has no
branch producing it. -/
inductive HbResponse where
  | badRequest (msg : String)
  | unauthorized
  | conflictWaiting (server_id : String)
  | okResponse
  deriving DecidableEq

/-- The inputs of one POST /heartbeat execution. -/
structure HeartbeatEnv where
  server_id_header : String
  auth_header : String
  servers : String → Option ServerRow

/-- The heartbeat handler: header check, bearer parse, empty-token
reject, then a single select on (id, auth_token_hash); an absent or
mismatching row is a plain 401 and only a matching row gets its
last_seen_at bumped. -/
def heartbeat (env : HeartbeatEnv) : List HbOp × HbResponse :=
  let server_id := rustTrim env.server_id_header
  if server_id = "" then
    ([], .badRequest "X-Server-Id header is required")
  else
    match parse_bearer_token env.auth_header with
    | none => ([], .badRequest "Authorization header is required")
    | some token =>
      if token = "" then ([], .unauthorized)
      else
        match env.servers server_id with
        | some row =>
          if row.auth_token_hash = some (sha256_hex token) then
            ([.selectServerByIdAndHash server_id (sha256_hex token),
              .updateLastSeen server_id], .okResponse)
          else
            ([.selectServerByIdAndHash server_id (sha256_hex token)], .unauthorized)
        | none =>
          ([.selectServerByIdAndHash server_id (sha256_hex token)], .unauthorized)

/-- C8 (amended): a heartbeat for a server_id with no servers row is
answered 401 Unauthorized after the lookup alone - no row is inserted and
no 409 waiting_for_registration is produced (that behaviour belongs to
the ingest and handshake gates). -/
theorem c8_heartbeat_absent_server (env : HeartbeatEnv) (token : String)
    (hsid : rustTrim env.server_id_header ≠ "")
    (htok : parse_bearer_token env.auth_header = some token)
    (hne : token ≠ "")
    (habsent : env.servers (rustTrim env.server_id_header) = none) :
    heartbeat env =
      ([.selectServerByIdAndHash (rustTrim env.server_id_header) (sha256_hex token)],
        .unauthorized) := by
  simp only [heartbeat, htok, habsent]
  rw [if_neg hsid, if_neg hne]

/-- A heartbeat request for a server the database has never seen. -/
def exHbEnv : HeartbeatEnv :=
  { server_id_header := "s-new",
    auth_header := "Bearer T",
    servers := fun _ => none }

/-- Witness for the amended C8 at a concrete environment. -/
theorem c8_heartbeat_absent_server_witness :
    rustTrim exHbEnv.server_id_header ≠ "" ∧
    parse_bearer_token exHbEnv.auth_header = some "T" ∧
    heartbeat exHbEnv =
      ([.selectServerByIdAndHash (rustTrim exHbEnv.server_id_header) (sha256_hex "T")],
        .unauthorized) := by
  refine ⟨by decide, by decide, ?_⟩
  exact c8_heartbeat_absent_server exHbEnv "T" (by decide) (by decide) (by decide) rfl

/-- Counterexample to C8 as stated: for an absent server row the
heartbeat handler answers 401 Unauthorized, emits no insert of a pending
server row, and does not answer 409 waiting_for_registration. -/
theorem c8_counterexample :
    (heartbeat exHbEnv).2 = .unauthorized ∧
    (heartbeat exHbEnv).2 ≠ .conflictWaiting "s-new" ∧
    ((heartbeat exHbEnv).1.all fun op => op ≠ .insertPendingServer "s-new") = true := by
  decide

/-! ## Batch transforms (src/api/src/transforms.rs)

The gzip framing is abstracted away: a transform consumes the list of
decompressed lines (each empty, unparseable, or a parsed JSON value) and
produces the list of output lines (the annotated metadata head or emitted
events).  All three v1 transforms share the identical read_line loop:
`line_no` counts every line, empty lines are skipped, the line numbered 1
is the metadata, and later parsed lines run through the transform's
stateful step. -/

/-- One physical line of the decompressed NDJSON stream. -/
inductive RawLine where
  | empty
  | malformed
  | parsed (j : Json)

/-- An output line: the annotated metadata head or an emitted event. -/
inductive OutLine (E : Type) where
  | meta (j : Json)
  | event (e : E)

/-- The metadata annotation: a parse failure is replaced by an empty
object (`unwrap_or`), an object gets "transform" set via Map::insert, and
any other JSON value is written back unchanged (`as_object_mut` fails).
Never reached for an empty line. -/
def annotateMeta (name : String) : RawLine → Json
  | .malformed => .obj [("transform", .str name)]
  | .parsed (.obj fields) => .obj (Json.objInsert fields "transform" (.str name))
  | .parsed j => j
  | .empty => .obj []

/-- The shared line loop. -/
def runLines {S E : Type} (name : String) (step : S → Json → S × Option E) :
    Nat → S → List RawLine → List (OutLine E)
  | _, _, [] => []
  | lineNo, st, l :: rest =>
    match l with
    | .empty => runLines name step (lineNo + 1) st rest
    | .malformed =>
      if lineNo + 1 = 1 then
        .meta (annotateMeta name .malformed) :: runLines name step (lineNo + 1) st rest
      else
        runLines name step (lineNo + 1) st rest
    | .parsed j =>
      if lineNo + 1 = 1 then
        .meta (annotateMeta name (.parsed j)) :: runLines name step (lineNo + 1) st rest
      else
        match step st j with
        | (st2, none) => runLines name step (lineNo + 1) st2 rest
        | (st2, some e) => .event e :: runLines name step (lineNo + 1) st2 rest

/-- A whole transform run. -/
def runTransform {S E : Type} (name : String) (init : S)
    (step : S → Json → S × Option E) (lines : List RawLine) : List (OutLine E) :=
  runLines name step 0 init lines

/-- The emitted events of an output, metadata dropped. -/
def outEvents {E : Type} : List (OutLine E) → List E
  | [] => []
  | .meta _ :: rest => outEvents rest
  | .event e :: rest => e :: outEvents rest

/-- ASCII hex digit. -/
def isHexDigit (c : Char) : Bool :=
  ('0' ≤ c && c ≤ '9') || ('a' ≤ c && c ≤ 'f') || ('A' ≤ c && c ≤ 'F')

/-- Shape check for canonical hyphenated UUIDs: hyphens at positions
8, 13, 18, 23, hex digits elsewhere. -/
def uuidShapeOk : Nat → List Char → Bool
  | _, [] => true
  | i, c :: cs =>
    (if i = 8 ∨ i = 13 ∨ i = 18 ∨ i = 23 then c == '-' else isHexDigit c) &&
      uuidShapeOk (i + 1) cs

/-- `uuid::Uuid::parse_str`, restricted to the canonical 36-character
hyphenated form (the only format the plugin emits); a parsed UUID is kept
as its string. -/
def parseUuid (s : String) : Option String :=
  if (s.toList.length == 36) && uuidShapeOk 0 s.toList then some s else none

/-- Rust `str::contains` on character lists: prefix test. -/
def isPrefixOfCL : List Char → List Char → Bool
  | [], _ => true
  | _ :: _, [] => false
  | a :: as, b :: bs => a == b && isPrefixOfCL as bs

/-- Rust `str::contains` on character lists: substring occurrence. -/
def containsSub : List Char → List Char → Bool
  | [], needle => needle.isEmpty
  | a :: rest, needle => isPrefixOfCL needle (a :: rest) || containsSub rest needle

/-- Rust `str::contains` (substring match). -/
def strContains (hay needle : String) : Bool :=
  containsSub hay.toList needle.toList

/-! ### movement_events_v1 -/

/-- Per-player last-known position. -/
structure LastPos where
  ts : Nat
  x : ℚ
  y : ℚ
  z : ℚ

/-- The movement transform's per-player state map. -/
abbrev MoveState := String → Option LastPos

/-- The deltas block of a movement event. -/
structure MoveDeltas where
  dt_ms : ℚ
  dx : ℚ
  dy : ℚ
  dz : ℚ
  speed_bps : ℝ

/-- A movement event. -/
structure MoveEvent where
  ts : Nat
  uuid : String
  x : ℚ
  y : ℚ
  z : ℚ
  on_ground : Option Bool
  deltas : Option MoveDeltas

/-- `dist / (dt_ms / 1000)` with dist the Euclidean norm of the deltas
and the code's division-by-zero guard (zero when dt_ms is not positive). -/
noncomputable def speedBps (dx dy dz dt : ℚ) : ℝ :=
  if 0 < dt then
    Real.sqrt (((dx * dx + dy * dy + dz * dz : ℚ) : ℝ)) / ((dt : ℝ) / 1000)
  else 0

/-- The per-line body of movement_events_v1: uuid, ts, fields, numeric
finite x/y/z in turn (bailing silently), the optional on_ground, the
delta block exactly when a prior position exists with strictly-later
current ts, and the last-position update. -/
noncomputable def movementStep (st : MoveState) (v : Json) :
    MoveState × Option MoveEvent :=
  match ((v.get "uuid").bind Json.as_str).bind parseUuid with
  | none => (st, none)
  | some uuid =>
    match (v.get "ts").bind Json.as_u64 with
    | none => (st, none)
    | some ts =>
      match (v.get "fields").bind Json.as_object with
      | none => (st, none)
      | some fields =>
        match (fields.lookup "x").bind Json.as_f64,
              (fields.lookup "y").bind Json.as_f64,
              (fields.lookup "z").bind Json.as_f64 with
        | some (x, fx), some (y, fy), some (z, fz) =>
          if !fx || !fy || !fz then (st, none)
          else
            let on_ground := (fields.lookup "on_ground").bind Json.as_bool
            let deltas : Option MoveDeltas :=
              match st uuid with
              | some prev =>
                if prev.ts < ts then
                  some { dt_ms := ((ts - prev.ts : Nat) : ℚ),
                         dx := x - prev.x,
                         dy := y - prev.y,
                         dz := z - prev.z,
                         speed_bps := speedBps (x - prev.x) (y - prev.y) (z - prev.z)
                           ((ts - prev.ts : Nat) : ℚ) }
                else none
              | none => none
            (fun u => if u = uuid then some { ts := ts, x := x, y := y, z := z } else st u,
             some { ts := ts, uuid := uuid, x := x, y := y, z := z,
                    on_ground := on_ground, deltas := deltas })
        | _, _, _ => (st, none)

/-- The movement transform. -/
noncomputable def movement_events_v1 (lines : List RawLine) : List (OutLine MoveEvent) :=
  runTransform "movement_events_v1" (fun _ => none) movementStep lines

/-- Specification-side reading of the C6 sentence (amended to ignore the
dir field): a line is an event source iff it parses with a valid uuid, an
integer ts and finite numeric x, y, z. -/
def specValidMove (j : Json) : Option (String × Nat × ℚ × ℚ × ℚ × Option Bool) :=
  match ((j.get "uuid").bind Json.as_str).bind parseUuid,
        (j.get "ts").bind Json.as_u64,
        (j.get "fields").bind Json.as_object with
  | some uuid, some ts, some fields =>
    match (fields.lookup "x").bind Json.as_f64,
          (fields.lookup "y").bind Json.as_f64,
          (fields.lookup "z").bind Json.as_f64 with
    | some (x, true), some (y, true), some (z, true) =>
      some (uuid, ts, x, y, z, (fields.lookup "on_ground").bind Json.as_bool)
    | _, _, _ => none
  | _, _, _ => none

/-- Specification-side event: carries ts, uuid, x, y, z and on_ground,
and carries the deltas with speed = sqrt(dx^2+dy^2+dz^2)/(dt/1000)
exactly when a prior position of the uuid with strictly-later current ts
exists. -/
noncomputable def specMoveEvent (st : MoveState) (uuid : String) (ts : Nat)
    (x y z : ℚ) (og : Option Bool) : MoveEvent :=
  { ts := ts, uuid := uuid, x := x, y := y, z := z, on_ground := og,
    deltas :=
      match st uuid with
      | some prev =>
        if prev.ts < ts then
          some { dt_ms := ((ts - prev.ts : Nat) : ℚ),
                 dx := x - prev.x,
                 dy := y - prev.y,
                 dz := z - prev.z,
                 speed_bps :=
                   Real.sqrt ((((x - prev.x) * (x - prev.x) + (y - prev.y) * (y - prev.y) +
                     (z - prev.z) * (z - prev.z) : ℚ) : ℝ)) /
                     ((((ts - prev.ts : Nat) : ℚ) : ℝ) / 1000) }
        else none
      | none => none }

/-- Specification-side walk over the data lines, maintaining the
per-player prior position. -/
noncomputable def movementSpecWalk : MoveState → List RawLine → List MoveEvent
  | _, [] => []
  | st, .parsed j :: rest =>
    match specValidMove j with
    | some (uuid, ts, x, y, z, og) =>
      specMoveEvent st uuid ts x y z og ::
        movementSpecWalk
          (fun u => if u = uuid then some { ts := ts, x := x, y := y, z := z } else st u) rest
    | none => movementSpecWalk st rest
  | st, .empty :: rest => movementSpecWalk st rest
  | st, .malformed :: rest => movementSpecWalk st rest

/-- Specification-side events of a whole input: everything after the
first line (the metadata slot) is data. -/
noncomputable def movementSpecEvents (lines : List RawLine) : List MoveEvent :=
  movementSpecWalk (fun _ => none) (lines.drop 1)

/-! ### combat_events_v1 -/

/-- Player pose (position and view angles). -/
structure PlayerPose where
  x : ℚ
  y : ℚ
  z : ℚ
  yaw : ℚ
  pitch : ℚ

/-- Per-player last attack. -/
structure LastAttack where
  ts : Nat
  target_entity_id : Int
  yaw : Option ℚ
  pitch : Option ℚ

/-- The combat transform's state. -/
structure CombatState where
  last_attacks : String → Option LastAttack
  last_pos : String → Option PlayerPose

/-- A combat event. -/
structure CombatEvent where
  ts : Nat
  uuid : String
  entity_id : Int
  sneaking : Bool
  player_pos : Option PlayerPose
  dt_ms : Option ℚ
  attacks_per_second : Option ℚ
  target_switched : Option Bool
  yaw_diff : Option ℚ

/-- The per-line body of combat_events_v1: position/rotation packets
update the pose context (merging with the previous pose, or seeding only
from full coordinates), INTERACT/USE_ENTITY packets with action ATTACK
emit an event enriched with pose and last-attack deltas
(saturating dt_ms, attacks-per-second when dt is positive, target switch,
wrap-corrected yaw difference), and the last attack is recorded. -/
def combatStep (st : CombatState) (v : Json) : CombatState × Option CombatEvent :=
  match ((v.get "uuid").bind Json.as_str).bind parseUuid,
        (v.get "ts").bind Json.as_u64 with
  | some uuid, some ts =>
    let pkt := ((v.get "pkt").bind Json.as_str).getD ""
    let fields? := (v.get "fields").bind Json.as_object
    if strContains pkt "POSITION" || strContains pkt "ROTATION" then
      match fields? with
      | none => (st, none)
      | some fields =>
        let x := ((fields.lookup "x").bind Json.as_f64).map Prod.fst
        let y := ((fields.lookup "y").bind Json.as_f64).map Prod.fst
        let z := ((fields.lookup "z").bind Json.as_f64).map Prod.fst
        let yaw := ((fields.lookup "yaw").bind Json.as_f64).map Prod.fst
        let pitch := ((fields.lookup "pitch").bind Json.as_f64).map Prod.fst
        match st.last_pos uuid with
        | some prev =>
          let merged : PlayerPose :=
            { x := x.getD prev.x, y := y.getD prev.y, z := z.getD prev.z,
              yaw := yaw.getD prev.yaw, pitch := pitch.getD prev.pitch }
          ({ st with last_pos := fun u => if u = uuid then some merged else st.last_pos u },
            none)
        | none =>
          match x, y, z with
          | some x, some y, some z =>
            let seeded : PlayerPose :=
              { x := x, y := y, z := z, yaw := yaw.getD 0, pitch := pitch.getD 0 }
            ({ st with last_pos := fun u => if u = uuid then some seeded else st.last_pos u },
              none)
          | _, _, _ => (st, none)
    else if !(strContains pkt "INTERACT" || strContains pkt "USE_ENTITY") then
      (st, none)
    else
      match fields? with
      | none => (st, none)
      | some fields =>
        if ((fields.lookup "action").bind Json.as_str).getD "" ≠ "ATTACK" then (st, none)
        else
          let entity_id := ((fields.lookup "entity_id").bind Json.as_i64).getD (-1)
          let sneaking := ((fields.lookup "sneaking").bind Json.as_bool).getD false
          let prev := st.last_attacks uuid
          let ev : CombatEvent :=
            { ts := ts, uuid := uuid, entity_id := entity_id, sneaking := sneaking,
              player_pos := st.last_pos uuid,
              dt_ms := prev.map fun p => ((ts - p.ts : Nat) : ℚ),
              attacks_per_second := prev.bind fun p =>
                if (0 : ℚ) < ((ts - p.ts : Nat) : ℚ) then
                  some (1000 / ((ts - p.ts : Nat) : ℚ))
                else none,
              target_switched := prev.map fun p => decide (entity_id ≠ p.target_entity_id),
              yaw_diff := prev.bind fun p => p.yaw.bind fun prev_yaw =>
                (st.last_pos uuid).map fun q => yaw_difference q.yaw prev_yaw }
          let rec0 : LastAttack :=
            { ts := ts, target_entity_id := entity_id,
              yaw := (st.last_pos uuid).map PlayerPose.yaw,
              pitch := (st.last_pos uuid).map PlayerPose.pitch }
          ({ st with last_attacks := fun u =>
              if u = uuid then some rec0 else st.last_attacks u }, some ev)
  | _, _ => (st, none)

/-- The combat transform. -/
def combat_events_v1 (lines : List RawLine) : List (OutLine CombatEvent) :=
  runTransform "combat_events_v1" ⟨fun _ => none, fun _ => none⟩ combatStep lines

/-! ### ncp_fight_v1 -/

/-- A tracked entity position. -/
structure EntityPos where
  x : ℚ
  y : ℚ
  z : ℚ

/-- The ncp transform's state. -/
structure NcpState where
  entity_pos : Int → Option EntityPos
  player_pose : String → Option PlayerPose

/-- Reach and aim-off geometry: the eye is 1.62 above the feet, the view
direction comes from yaw/pitch in degrees, and the direction norm is
floored at 1e-9. -/
noncomputable def ncpGeometry (pose : PlayerPose) (t : EntityPos) : ℝ × ℝ :=
  let rx : ℝ := ((t.x - pose.x : ℚ) : ℝ)
  let ry : ℝ := ((t.y - (pose.y + 162 / 100) : ℚ) : ℝ)
  let rz : ℝ := ((t.z - pose.z : ℚ) : ℝ)
  let yaw_rad : ℝ := ((pose.yaw : ℚ) : ℝ) * Real.pi / 180
  let pitch_rad : ℝ := ((pose.pitch : ℚ) : ℝ) * Real.pi / 180
  let dx := -Real.cos pitch_rad * Real.sin yaw_rad
  let dy := -Real.sin pitch_rad
  let dz := Real.cos pitch_rad * Real.cos yaw_rad
  let d_len := max (Real.sqrt (dx * dx + dy * dy + dz * dz)) (1 / 1000000000)
  let cx := ry * dz - rz * dy
  let cy := rz * dx - rx * dz
  let cz := rx * dy - ry * dx
  (Real.sqrt (rx * rx + ry * ry + rz * rz),
   Real.sqrt (cx * cx + cy * cy + cz * cz) / d_len)

/-- Target block of an ncp event. -/
structure NcpTargetInfo where
  x : ℚ
  y : ℚ
  z : ℚ
  reach_distance : ℝ
  aim_off : ℝ

/-- An ncp fight event. -/
structure NcpEvent where
  ts : Nat
  uuid : String
  entity_id : Int
  pose : PlayerPose
  target : Option NcpTargetInfo

/-- The per-line body of ncp_fight_v1: clientbound SPAWN/ENTITY_TELEPORT
set absolute entity positions, ENTITY_RELATIVE_MOVE adds deltas,
DESTROY_ENTITIES removes ids; serverbound POSITION/ROTATION/FLYING
packets update the player pose (seeded only from full coordinates);
serverbound INTERACT_ENTITY/USE_ENTITY attacks with a known pose emit an
event, enriched with reach/aim geometry when the target is tracked. -/
noncomputable def ncpStep (st : NcpState) (v : Json) : NcpState × Option NcpEvent :=
  match (v.get "ts").bind Json.as_u64, (v.get "fields").bind Json.as_object with
  | some ts, some fields =>
    let pkt := ((v.get "pkt").bind Json.as_str).getD ""
    let dir := ((v.get "dir").bind Json.as_str).getD ""
    if dir == "clientbound" && (strContains pkt "SPAWN" || strContains pkt "ENTITY_TELEPORT") then
      match (fields.lookup "entity_id").bind Json.as_i64,
            ((fields.lookup "x").bind Json.as_f64).map Prod.fst,
            ((fields.lookup "y").bind Json.as_f64).map Prod.fst,
            ((fields.lookup "z").bind Json.as_f64).map Prod.fst with
      | some eid, some x, some y, some z =>
        let p : EntityPos := ⟨x, y, z⟩
        ({ st with entity_pos := fun i => if i = eid then some p else st.entity_pos i },
          none)
      | _, _, _, _ => (st, none)
    else if dir == "clientbound" && strContains pkt "ENTITY_RELATIVE_MOVE" then
      let dx := (((fields.lookup "dx").bind Json.as_f64).map Prod.fst).getD 0
      let dy := (((fields.lookup "dy").bind Json.as_f64).map Prod.fst).getD 0
      let dz := (((fields.lookup "dz").bind Json.as_f64).map Prod.fst).getD 0
      match (fields.lookup "entity_id").bind Json.as_i64 with
      | some eid =>
        match st.entity_pos eid with
        | some p =>
          let moved : EntityPos := ⟨p.x + dx, p.y + dy, p.z + dz⟩
          ({ st with entity_pos := fun i => if i = eid then some moved else st.entity_pos i },
            none)
        | none => (st, none)
      | none => (st, none)
    else if dir == "clientbound" && strContains pkt "DESTROY_ENTITIES" then
      match (fields.lookup "entity_ids").bind Json.as_array with
      | some arr =>
        ({ st with entity_pos := fun i =>
            if (arr.filterMap Json.as_i64).contains i then none else st.entity_pos i }, none)
      | none => (st, none)
    else if dir == "serverbound" &&
        (strContains pkt "POSITION" || strContains pkt "ROTATION" ||
          strContains pkt "FLYING") then
      match ((v.get "uuid").bind Json.as_str).bind parseUuid with
      | none => (st, none)
      | some uuid =>
        let x := ((fields.lookup "x").bind Json.as_f64).map Prod.fst
        let y := ((fields.lookup "y").bind Json.as_f64).map Prod.fst
        let z := ((fields.lookup "z").bind Json.as_f64).map Prod.fst
        let yaw := ((fields.lookup "yaw").bind Json.as_f64).map Prod.fst
        let pitch := ((fields.lookup "pitch").bind Json.as_f64).map Prod.fst
        match st.player_pose uuid with
        | some prev =>
          let merged : PlayerPose :=
            { x := x.getD prev.x, y := y.getD prev.y, z := z.getD prev.z,
              yaw := yaw.getD prev.yaw, pitch := pitch.getD prev.pitch }
          ({ st with player_pose := fun u =>
              if u = uuid then some merged else st.player_pose u }, none)
        | none =>
          match x, y, z with
          | some x, some y, some z =>
            let seeded : PlayerPose :=
              { x := x, y := y, z := z, yaw := yaw.getD 0, pitch := pitch.getD 0 }
            ({ st with player_pose := fun u =>
                if u = uuid then some seeded else st.player_pose u }, none)
          | _, _, _ => (st, none)
    else if dir == "serverbound" &&
        (strContains pkt "INTERACT_ENTITY" || strContains pkt "USE_ENTITY") then
      if ((fields.lookup "action").bind Json.as_str).getD "" ≠ "ATTACK" then (st, none)
      else
        match ((v.get "uuid").bind Json.as_str).bind parseUuid,
              (fields.lookup "entity_id").bind Json.as_i64 with
        | some uuid, some eid =>
          match st.player_pose uuid with
          | none => (st, none)
          | some pose =>
            let tinfo : EntityPos → NcpTargetInfo := fun t =>
              { x := t.x, y := t.y, z := t.z,
                reach_distance := (ncpGeometry pose t).1,
                aim_off := (ncpGeometry pose t).2 }
            let ev : NcpEvent :=
              { ts := ts, uuid := uuid, entity_id := eid, pose := pose,
                target := (st.entity_pos eid).map tinfo }
            (st, some ev)
        | _, _ => (st, none)
    else (st, none)
  | _, _ => (st, none)

/-- The ncp fight transform. -/
noncomputable def ncp_fight_v1 (lines : List RawLine) : List (OutLine NcpEvent) :=
  runTransform "ncp_fight_v1" ⟨fun _ => none, fun _ => none⟩ ncpStep lines

/-! ### The shared envelope (C7) -/

theorem lookup_map_replace (fields : List (String × Json)) (k : String) (v : Json) :
    (fields.map (fun p => if p.1 == k then (k, v) else p)).lookup k =
      if fields.any (fun p => p.1 == k) then some v else none := by
  induction fields with
  | nil => rfl
  | cons p rest ih =>
    simp only [List.map_cons, List.any_cons]
    by_cases hp : (p.1 == k) = true
    · have hhead : (if (p.1 == k) = true then ((k, v) : String × Json) else p) = (k, v) :=
        if_pos hp
      rw [hhead]
      simp [hp, List.lookup]
    · have hhead : (if (p.1 == k) = true then ((k, v) : String × Json) else p) = p :=
        if_neg hp
      rw [hhead]
      simp only [Bool.not_eq_true] at hp
      have hk : (k == p.1) = false := by
        rw [beq_eq_false_iff_ne] at hp ⊢
        exact fun hkk => hp hkk.symm
      simp only [List.lookup, hk, hp, Bool.false_or]
      exact ih

theorem lookup_map_replace_other (fields : List (String × Json)) (k : String) (v : Json)
    (k2 : String) (h : k2 ≠ k) :
    (fields.map (fun p => if p.1 == k then (k, v) else p)).lookup k2 = fields.lookup k2 := by
  have hk : (k2 == k) = false := by rw [beq_eq_false_iff_ne]; exact h
  induction fields with
  | nil => rfl
  | cons p rest ih =>
    simp only [List.map_cons]
    by_cases hp : (p.1 == k) = true
    · have hhead : (if (p.1 == k) = true then ((k, v) : String × Json) else p) = (k, v) :=
        if_pos hp
      rw [hhead]
      have hpk : p.1 = k := by rwa [beq_iff_eq] at hp
      have hk2 : (k2 == p.1) = false := by rw [hpk]; exact hk
      simp only [List.lookup, hk, hk2]
      exact ih
    · have hhead : (if (p.1 == k) = true then ((k, v) : String × Json) else p) = p :=
        if_neg hp
      rw [hhead]
      simp only [List.lookup]
      cases hk2 : (k2 == p.1) with
      | true => rfl
      | false => exact ih

theorem lookup_eq_none_of_not_any (fields : List (String × Json)) (k : String)
    (h : fields.any (fun p => p.1 == k) = false) :
    fields.lookup k = none := by
  induction fields with
  | nil => rfl
  | cons p rest ih =>
    simp only [List.any_cons, Bool.or_eq_false_iff] at h
    have hk : (k == p.1) = false := by
      have h1 := h.1
      rw [beq_eq_false_iff_ne] at h1 ⊢
      exact fun hkk => h1 hkk.symm
    simp only [List.lookup, hk]
    exact ih h.2

theorem lookup_append_single (fields : List (String × Json)) (k : String) (v : Json)
    (hnone : fields.lookup k = none) :
    (fields ++ [(k, v)]).lookup k = some v := by
  induction fields with
  | nil => simp [List.lookup]
  | cons p rest ih =>
    simp only [List.lookup] at hnone ⊢
    cases hk : (k == p.1) with
    | true => rw [hk] at hnone; cases hnone
    | false =>
      rw [hk] at hnone
      simp only [List.cons_append, List.lookup, hk]
      exact ih hnone

theorem lookup_append_other (fields : List (String × Json)) (k : String) (v : Json)
    (k2 : String) (h : k2 ≠ k) :
    (fields ++ [(k, v)]).lookup k2 = fields.lookup k2 := by
  have hk : (k2 == k) = false := by rw [beq_eq_false_iff_ne]; exact h
  induction fields with
  | nil => simp [List.lookup, hk]
  | cons p rest ih =>
    simp only [List.cons_append, List.lookup]
    cases hk2 : (k2 == p.1) with
    | true => rfl
    | false => exact ih

theorem lookup_objInsert_self (fields : List (String × Json)) (k : String) (v : Json) :
    (Json.objInsert fields k v).lookup k = some v := by
  unfold Json.objInsert
  split
  · rename_i hany
    rw [lookup_map_replace, if_pos hany]
  · rename_i hany
    exact lookup_append_single fields k v
      (lookup_eq_none_of_not_any fields k (by
        revert hany
        cases fields.any (fun p => p.1 == k) <;> simp))

theorem lookup_objInsert_other (fields : List (String × Json)) (k : String) (v : Json)
    (k2 : String) (h : k2 ≠ k) :
    (Json.objInsert fields k v).lookup k2 = fields.lookup k2 := by
  unfold Json.objInsert
  split
  · exact lookup_map_replace_other fields k v k2 h
  · exact lookup_append_other fields k v k2 h

theorem runTransform_head {S E : Type} (name : String) (init : S)
    (step : S → Json → S × Option E) (l : RawLine) (rest : List RawLine)
    (hne : l ≠ .empty) :
    runTransform name init step (l :: rest) =
      .meta (annotateMeta name l) :: runLines name step 1 init rest := by
  cases l with
  | empty => exact absurd rfl hne
  | malformed => rfl
  | parsed j => rfl

theorem annotateMeta_transform (name : String) (l : RawLine)
    (hobj : l = .malformed ∨ ∃ fields, l = .parsed (.obj fields)) :
    (annotateMeta name l).get "transform" = some (.str name) := by
  rcases hobj with h | ⟨fields, h⟩ <;> subst h
  · rfl
  · exact lookup_objInsert_self fields "transform" (.str name)

/-- C7 (amended): for each of the three v1 transforms, whenever the first
input line is unparseable or parses as a JSON object, the first output
line is exactly the annotated metadata - it parses as JSON, carries
"transform": "<name>", every other field of the metadata object is passed
through unchanged, and no other line precedes it.  (A first line parsing
as a non-object JSON value is passed through without the field, and an
empty first line suppresses the metadata - see the counterexample.) -/
theorem c7_transform_envelope (l : RawLine) (rest : List RawLine)
    (hne : l ≠ .empty)
    (hobj : l = .malformed ∨ ∃ fields, l = .parsed (.obj fields)) :
    (movement_events_v1 (l :: rest)).head? =
      some (.meta (annotateMeta "movement_events_v1" l)) ∧
    (combat_events_v1 (l :: rest)).head? =
      some (.meta (annotateMeta "combat_events_v1" l)) ∧
    (ncp_fight_v1 (l :: rest)).head? =
      some (.meta (annotateMeta "ncp_fight_v1" l)) ∧
    (∀ name, (annotateMeta name l).get "transform" = some (.str name)) ∧
    (∀ name fields k, l = .parsed (.obj fields) → k ≠ "transform" →
      (annotateMeta name l).get k = (Json.obj fields).get k) := by
  refine ⟨?_, ?_, ?_, ?_, ?_⟩
  · rw [movement_events_v1, runTransform_head _ _ _ _ _ hne]
    rfl
  · rw [combat_events_v1, runTransform_head _ _ _ _ _ hne]
    rfl
  · rw [ncp_fight_v1, runTransform_head _ _ _ _ _ hne]
    rfl
  · intro name
    exact annotateMeta_transform name l hobj
  · intro name fields k hl hk
    subst hl
    exact lookup_objInsert_other fields "transform" (.str name) k hk

/-- A one-field metadata object. -/
def exMetaFields : List (String × Json) := [("server_id", Json.str "s")]

/-- Witness for the amended C7 at a concrete metadata line. -/
theorem c7_transform_envelope_witness :
    (RawLine.parsed (.obj exMetaFields) ≠ .empty) ∧
    (movement_events_v1 [.parsed (.obj exMetaFields)]).head? =
      some (.meta (annotateMeta "movement_events_v1" (.parsed (.obj exMetaFields)))) ∧
    (ncp_fight_v1 [.parsed (.obj exMetaFields)]).head? =
      some (.meta (annotateMeta "ncp_fight_v1" (.parsed (.obj exMetaFields)))) ∧
    (annotateMeta "combat_events_v1" (.parsed (.obj exMetaFields))).get "transform" =
      some (.str "combat_events_v1") := by
  have h := c7_transform_envelope (.parsed (.obj exMetaFields)) []
    (by intro hh; cases hh) (Or.inr ⟨exMetaFields, rfl⟩)
  refine ⟨?_, h.1, h.2.2.1, h.2.2.2.1 "combat_events_v1"⟩
  intro hh
  cases hh

/-- Counterexample to C7 as stated: a non-empty NDJSON input whose first
line parses as the JSON value 5 (not an object) is passed through
unchanged - the first output line of movement_events_v1 carries no
"transform" field. -/
theorem c7_counterexample :
    (movement_events_v1 [.parsed (.num 5 true)]).head? =
      some (.meta (.num 5 true)) ∧
    (Json.num 5 true).get "transform" = none := by
  exact ⟨rfl, rfl⟩

/-! ### movement_events_v1 against the C6 sentence -/

theorem movementStep_spec (st : MoveState) (j : Json) :
    movementStep st j =
      match specValidMove j with
      | none => (st, none)
      | some (uuid, ts, x, y, z, og) =>
        (fun u => if u = uuid then some { ts := ts, x := x, y := y, z := z } else st u,
         some (specMoveEvent st uuid ts x y z og)) := by
  cases hu : ((j.get "uuid").bind Json.as_str).bind parseUuid with
  | none => simp only [movementStep, specValidMove, hu]
  | some uuid =>
    cases ht : (j.get "ts").bind Json.as_u64 with
    | none => simp only [movementStep, specValidMove, hu, ht]
    | some ts =>
      cases hf : (j.get "fields").bind Json.as_object with
      | none => simp only [movementStep, specValidMove, hu, ht, hf]
      | some fields =>
        cases hx : (fields.lookup "x").bind Json.as_f64 with
        | none => simp only [movementStep, specValidMove, hu, ht, hf, hx]
        | some xf =>
          cases hy : (fields.lookup "y").bind Json.as_f64 with
          | none => simp only [movementStep, specValidMove, hu, ht, hf, hx, hy]
          | some yf =>
            cases hz : (fields.lookup "z").bind Json.as_f64 with
            | none => simp only [movementStep, specValidMove, hu, ht, hf, hx, hy, hz]
            | some zf =>
              obtain ⟨x, fx⟩ := xf
              obtain ⟨y, fy⟩ := yf
              obtain ⟨z, fz⟩ := zf
              cases fx <;> cases fy <;> cases fz <;>
                simp only [movementStep, specValidMove, hu, ht, hf, hx, hy, hz]
              all_goals try rfl
              case true.true.true =>
                rw [if_neg (by decide)]
                simp only [specMoveEvent, Prod.mk.injEq, Option.some.injEq]
                refine ⟨trivial, ?_⟩
                simp only [MoveEvent.mk.injEq, true_and]
                cases hprev : st uuid with
                | none => simp
                | some prev =>
                  simp only []
                  by_cases hlt : prev.ts < ts
                  · rw [if_pos hlt, if_pos hlt]
                    simp only [MoveDeltas.mk.injEq, true_and, Option.some.injEq, and_true]
                    unfold speedBps
                    rw [if_pos (by
                      have hpos : 0 < ts - prev.ts := by omega
                      exact_mod_cast Nat.cast_pos.mpr hpos)]
                  · rw [if_neg hlt, if_neg hlt]

theorem outEvents_runLines_movement (rest : List RawLine) :
    ∀ (st : MoveState) (n : Nat), n ≠ 0 →
    outEvents (runLines "movement_events_v1" movementStep n st rest) =
      movementSpecWalk st rest := by
  induction rest with
  | nil => intro st n hn; rfl
  | cons l rest ih =>
    intro st n hn
    cases l with
    | empty =>
      show outEvents (runLines "movement_events_v1" movementStep (n + 1) st rest) =
        movementSpecWalk st rest
      exact ih st (n + 1) (by omega)
    | malformed =>
      simp only [runLines]
      rw [if_neg (by omega : ¬ n + 1 = 1)]
      show outEvents (runLines "movement_events_v1" movementStep (n + 1) st rest) =
        movementSpecWalk st rest
      exact ih st (n + 1) (by omega)
    | parsed j =>
      simp only [runLines]
      rw [if_neg (by omega : ¬ n + 1 = 1)]
      rw [movementStep_spec]
      show _ = movementSpecWalk st (.parsed j :: rest)
      simp only [movementSpecWalk]
      cases hv : specValidMove j with
      | none =>
        simp only []
        exact ih st (n + 1) (by omega)
      | some tup =>
        obtain ⟨uuid, ts, x, y, z, og⟩ := tup
        simp only [outEvents]
        rw [ih _ (n + 1) (by omega)]

/-- C6 (amended): movement_events_v1 emits one event exactly for each
data line (every line after the first, regardless of its dir field) that
parses as JSON with a valid uuid, an integer ts and finite numeric
x, y, z; the event carries ts, uuid, x, y, z and the optional on_ground,
and carries dt_ms, dx, dy, dz, speed_bps with
speed_bps = sqrt(dx^2+dy^2+dz^2)/(dt_ms/1000) exactly when a prior
position for that uuid exists with the current ts strictly later. -/
theorem c6_movement_events (lines : List RawLine) :
    outEvents (movement_events_v1 lines) = movementSpecEvents lines := by
  cases lines with
  | nil => rfl
  | cons l rest =>
    cases l with
    | empty =>
      show outEvents (runLines "movement_events_v1" movementStep 1 (fun _ => none) rest) =
        movementSpecWalk (fun _ => none) rest
      exact outEvents_runLines_movement rest (fun _ => none) 1 one_ne_zero
    | malformed =>
      show outEvents (.meta (annotateMeta "movement_events_v1" .malformed) ::
        runLines "movement_events_v1" movementStep 1 (fun _ => none) rest) =
        movementSpecWalk (fun _ => none) rest
      simp only [outEvents]
      exact outEvents_runLines_movement rest (fun _ => none) 1 one_ne_zero
    | parsed j =>
      show outEvents (.meta (annotateMeta "movement_events_v1" (.parsed j)) ::
        runLines "movement_events_v1" movementStep 1 (fun _ => none) rest) =
        movementSpecWalk (fun _ => none) rest
      simp only [outEvents]
      exact outEvents_runLines_movement rest (fun _ => none) 1 one_ne_zero

/-- The C6 sentence's per-line validity as stated, including the
serverbound direction requirement. -/
def statedServerboundValid (l : RawLine) : Bool :=
  match l with
  | .parsed j =>
    (specValidMove j).isSome &&
      (((j.get "dir").bind Json.as_str).getD "" == "serverbound")
  | _ => false

/-- How many data lines the C6 sentence, as stated, predicts an event
for. -/
def serverboundValidCount (lines : List RawLine) : Nat :=
  ((lines.drop 1).filter statedServerboundValid).length

/-- A metadata line. -/
def exMetaLine : Json := .obj [("server_id", .str "s"), ("session_id", .str "x")]

/-- A clientbound packet line with a valid uuid, integer ts and finite
coordinates. -/
def exClientboundMove : Json :=
  .obj [("ts", .num 1000 true),
        ("uuid", .str "00000000-0000-0000-0000-000000000001"),
        ("dir", .str "clientbound"),
        ("pkt", .str "PLAYER_POSITION"),
        ("fields", .obj [("x", .num 0 true), ("y", .num 64 true), ("z", .num 0 true)])]

/-- A two-line input whose only data line is clientbound. -/
def exMoveLines : List RawLine := [.parsed exMetaLine, .parsed exClientboundMove]

/-- Counterexample to C6 as stated: movement_events_v1 never examines the
dir field, so a clientbound packet line with valid uuid/ts/coordinates
produces an event while the claim - which counts only serverbound lines -
predicts none. -/
theorem c6_counterexample :
    (outEvents (movement_events_v1 exMoveLines)).length = 1 ∧
    serverboundValidCount exMoveLines = 0 := by
  exact ⟨rfl, rfl⟩
